import Mathlib

/-!
# Verification of the batch hard-link creator

A shallow embedding of the core logic of `ハードリンク作成.py`:
the collision-resolving destination-name computation, the batch link loop
with per-file error isolation (`process_files`), the precondition check
(`validate_inputs`), the recent-path bookkeeping (`RecentPathManager`)
and the persisted recent-path loader.

The filesystem is modelled as the list of currently existing paths.
Operating-system failures that the Python code observes as exceptions
(permission errors, cross-device links, unreadable files, ...) are
modelled by explicit oracle parameters; outcomes the code forces
(a missing source raises `FileNotFoundError`) are hard-coded.
-/

namespace Hardlink

/-! ## Decimal rendering (model of Python `str(count)` inside the f-string) -/

/-- The character for a single decimal digit. -/
def digitChar (d : Nat) : Char := Char.ofNat (48 + d)

/-- Digit list of `n`, most significant first; `fuel` bounds the recursion
and any `fuel > n` is sufficient. -/
def str_digits_aux : Nat → Nat → List Char
  | 0, _ => []
  | fuel + 1, n =>
    if n < 10 then [digitChar n]
    else str_digits_aux fuel (n / 10) ++ [digitChar (n % 10)]

/-- Model of Python `str` on a non-negative integer. -/
def str_of_nat (n : Nat) : String := String.mk (str_digits_aux (n + 1) n)

/-- Numeric value of a digit character (left inverse of `digitChar`). -/
def digitVal (c : Char) : Nat := c.toNat - 48

/-- Reads a digit list back as a number; used only to prove `str_of_nat` injective. -/
def valOfDigits (cs : List Char) : Nat := cs.foldl (fun acc c => acc * 10 + digitVal c) 0

/-! ## Path primitives (models of `os.path` operations on POSIX-style paths) -/

/-- Splits a character list on a separator; model of splitting a path
into its `/`-separated segments. -/
def splitChar (sep : Char) : List Char → List (List Char)
  | [] => [[]]
  | c :: cs =>
    let r := splitChar sep cs
    if c == sep then [] :: r
    else
      match r with
      | [] => [[c]]
      | g :: gs => (c :: g) :: gs

/-- Model of `os.path.basename`: the part after the last separator. -/
def basename (p : String) : String := String.mk ((splitChar '/' p.data).getLastD [])

/-- Model of `os.path.join` with a relative second component. -/
def joinPath (dir name : String) : String := dir ++ "/" ++ name

/-- Index of the last '.' in a character list, if any. -/
def lastDot (cs : List Char) : Option Nat :=
  (List.range cs.length).foldl
    (fun acc i => if cs.getD i ' ' == '.' then some i else acc) none

/-- Model of `os.path.splitext`: splits at the last dot, except when every
character before that dot is itself a dot (so ".bashrc" keeps no extension). -/
def splitext (name : String) : String × String :=
  let cs := name.data
  match lastDot cs with
  | none => (name, "")
  | some i =>
    if (cs.take i).all (fun c => c == '.') then (name, "")
    else (String.mk (cs.take i), String.mk (cs.drop i))

/-- Model of `os.path.exists` against the filesystem snapshot `fs`. -/
def pathExists (fs : List String) (p : String) : Bool := fs.contains p

/-! ## Collision resolution (lines 361-372 of `process_files`) -/

/-- The candidate path `output_dir/base_count ++ ext` built by
`f"{base}_{count}{ext}"` and `os.path.join`. -/
def candidate (output_dir base ext : String) (count : Nat) : String :=
  joinPath output_dir (base ++ "_" ++ str_of_nat count ++ ext)

/-- The `while os.path.exists(output_path)` probe loop. `fuel` bounds the
iteration count; `probe_loop_eq` shows the fuel used by
`resolve_output_path` always suffices. -/
def probe_loop (fs : List String) (output_dir base ext : String) :
    Nat → String → Nat → String
  | 0, output_path, _ => output_path
  | fuel + 1, output_path, count =>
    if pathExists fs output_path then
      probe_loop fs output_dir base ext fuel (candidate output_dir base ext count) (count + 1)
    else output_path

/-- Destination-name resolution: `output_path = os.path.join(output_dir,
os.path.basename(file))`, kept unchanged when free, otherwise probed with
suffixes `_1`, `_2`, ... -/
def resolve_output_path (fs : List String) (output_dir file : String) : String :=
  let file_name := basename file
  let output_path := joinPath output_dir file_name
  if pathExists fs output_path then
    let stem_ext := splitext file_name
    probe_loop fs output_dir stem_ext.1 stem_ext.2 (fs.length + 1) output_path 1
  else output_path

/-! ## The batch loop of `process_files` (lines 348-392) -/

/-- One per-file outcome: the success log line carries the resolved
destination, the error log line carries the source and the message. -/
inductive LinkOutcome where
  | success (output_path : String)
  | failure (file : String) (msg : String)
deriving DecidableEq

/-- State threaded through the `for` loop: the filesystem snapshot, the
emitted per-file outcomes, the two counters, and the progress values
computed at line 357 (`none` models a `ZeroDivisionError`). -/
structure BatchState where
  fs : List String
  outcomes : List LinkOutcome
  success_count : Nat
  error_count : Nat
  progress_log : List (Option Nat)
deriving DecidableEq

/-- An oracle deciding whether `os.link` raises for reasons other than a
missing source (permission denied, cross-device link, ...); it sees the
filesystem, the source and the destination and returns the message. -/
def LinkOracle : Type := List String → String → String → Option String

/-- Error message model for `FileNotFoundError`. -/
def fileNotFoundMsg (file : String) : String := "No such file or directory: " ++ file

/-- Error message model for `ZeroDivisionError`. -/
def zeroDivMsg : String := "division by zero"

/-- Whether `os.link(src, dst)` raises: a missing source always raises
`FileNotFoundError`; otherwise the oracle decides. -/
def link_error (oracle : LinkOracle) (fs : List String) (src dst : String) : Option String :=
  if pathExists fs src then oracle fs src dst else some (fileNotFoundMsg src)

/-- The progress computation `int((i + 1) / total * 100)` at line 357;
`none` models the `ZeroDivisionError` raised when `total = 0`. -/
def progress_value (i total : Nat) : Option Nat :=
  if total = 0 then none else some ((i + 1) * 100 / total)

/-- The body of the `for` loop for one file: the whole body is inside
`try`, so a raise at the progress computation or at `os.link` is caught
and recorded as an error; on success the new link is added to the
filesystem. -/
def process_step (oracle : LinkOracle) (output_dir : String) (total : Nat)
    (st : BatchState) (i : Nat) (file : String) : BatchState :=
  match progress_value i total with
  | none =>
      { st with
        outcomes := st.outcomes ++ [LinkOutcome.failure file zeroDivMsg],
        error_count := st.error_count + 1,
        progress_log := st.progress_log ++ [none] }
  | some p =>
      let output_path := resolve_output_path st.fs output_dir file
      match link_error oracle st.fs file output_path with
      | none =>
          { fs := output_path :: st.fs,
            outcomes := st.outcomes ++ [LinkOutcome.success output_path],
            success_count := st.success_count + 1,
            error_count := st.error_count,
            progress_log := st.progress_log ++ [some p] }
      | some msg =>
          { st with
            outcomes := st.outcomes ++ [LinkOutcome.failure file msg],
            error_count := st.error_count + 1,
            progress_log := st.progress_log ++ [some p] }

/-- The single outcome recorded by `process_step`. -/
def step_outcome (oracle : LinkOracle) (output_dir : String) (total : Nat)
    (st : BatchState) (i : Nat) (file : String) : LinkOutcome :=
  match progress_value i total with
  | none => LinkOutcome.failure file zeroDivMsg
  | some _ =>
      let output_path := resolve_output_path st.fs output_dir file
      match link_error oracle st.fs file output_path with
      | none => LinkOutcome.success output_path
      | some msg => LinkOutcome.failure file msg

/-- The `for i, file in enumerate(files)` loop. -/
def process_files_go (oracle : LinkOracle) (output_dir : String) (total : Nat) :
    List String → Nat → BatchState → BatchState
  | [], _, st => st
  | file :: rest, i, st =>
      process_files_go oracle output_dir total rest (i + 1)
        (process_step oracle output_dir total st i file)

/-- State at loop entry: counters zero, no outcomes. -/
def initial_state (fs : List String) : BatchState :=
  { fs := fs, outcomes := [], success_count := 0, error_count := 0, progress_log := [] }

/-- Model of `process_files`: `total = len(files)`, then the loop over all files. -/
def process_files (oracle : LinkOracle) (output_dir : String)
    (files fs : List String) : BatchState :=
  process_files_go oracle output_dir files.length files 0 (initial_state fs)

/-- State reached after the first `j` files have been processed. -/
def state_after (oracle : LinkOracle) (output_dir : String)
    (files fs : List String) (j : Nat) : BatchState :=
  process_files_go oracle output_dir files.length (files.take j) 0 (initial_state fs)

/-! ## `validate_inputs` (lines 398-415) -/

/-- The three precondition failures, named as in the specification; the
code reports each through a blocking error dialog and returns `False`. -/
inductive ValidateError where
  | emptyInput
  | noDestination
  | destinationCreateError
deriving DecidableEq

/-- A filesystem operation performed during validation. -/
inductive FsOp where
  | existsCheck (p : String)
  | makedirs (p : String)
deriving DecidableEq

/-- The paths `os.makedirs(p)` brings into existence: `p` itself and every
ancestor obtained by truncating at a separator. -/
def makedirs_created (p : String) : List String :=
  let segs := splitChar '/' p.data
  p :: (List.range (segs.length - 1)).map
    (fun i => String.mk (List.intercalate ['/'] (segs.take (i + 1))))

/-- Model of `validate_inputs`: source-list emptiness, destination
emptiness, then existence check and `os.makedirs` (whose possible raise is
the `mkdir_ok` oracle). Returns the validation result together with the
trace of filesystem operations performed. -/
def validate_inputs (mkdir_ok : Bool) (fs files : List String) (output_dir : String) :
    Except ValidateError (List String) × List FsOp :=
  if files.length = 0 then (Except.error ValidateError.emptyInput, [])
  else if output_dir = "" then (Except.error ValidateError.noDestination, [])
  else if pathExists fs output_dir then (Except.ok fs, [FsOp.existsCheck output_dir])
  else if mkdir_ok then
    (Except.ok (makedirs_created output_dir ++ fs),
      [FsOp.existsCheck output_dir, FsOp.makedirs output_dir])
  else
    (Except.error ValidateError.destinationCreateError,
      [FsOp.existsCheck output_dir, FsOp.makedirs output_dir])

/-- Model of `create_hardlinks`: validation first; the batch loop runs only when
validation succeeded, on the filesystem validation produced. -/
def create_hardlinks (oracle : LinkOracle) (mkdir_ok : Bool)
    (fs files : List String) (output_dir : String) : Option BatchState :=
  match (validate_inputs mkdir_ok fs files output_dir).1 with
  | Except.error _ => none
  | Except.ok fs2 => some (process_files oracle output_dir files fs2)

/-! ## `RecentPathManager` (lines 57-88) -/

/-- Model of `RecentPathManager.add_path`: remove the first prior
occurrence if present, insert at the front, drop the last entry when the
bound is exceeded. -/
def add_path (max_entries : Nat) (recent_paths : List String) (path : String) : List String :=
  let rp := if path ∈ recent_paths then recent_paths.erase path else recent_paths
  let rp2 := path :: rp
  if rp2.length > max_entries then rp2.dropLast else rp2

/-- What reading `recent_paths.json` yielded: the file may be absent, the
read may raise, or it may produce text. -/
inductive FileReadResult where
  | missing
  | readError (msg : String)
  | content (text : String)

/-- Model of `RecentPathManager.load_recent_paths`: the `try` block skips
a missing file, and any raise while reading or JSON-parsing (the `parse`
oracle) is caught, logged, and replaced by the empty list. -/
def load_recent_paths (parse : String → Except String (List String))
    (file : FileReadResult) : List String :=
  match file with
  | FileReadResult.missing => []
  | FileReadResult.readError _ => []
  | FileReadResult.content text =>
      match parse text with
      | Except.ok paths => paths
      | Except.error _ => []

/-! ## Lemmas -/

theorem digitVal_digitChar : ∀ d, d < 10 → digitVal (digitChar d) = d := by decide

theorem valOfDigits_append_digit (l : List Char) (c : Char) :
    valOfDigits (l ++ [c]) = valOfDigits l * 10 + digitVal c := by
  simp [valOfDigits, List.foldl_append]

theorem valOfDigits_str_digits_aux :
    ∀ fuel n, n < fuel → valOfDigits (str_digits_aux fuel n) = n := by
  intro fuel
  induction fuel with
  | zero => intro n hn; omega
  | succ f ih =>
    intro n hn
    simp only [str_digits_aux]
    by_cases h : n < 10
    · simp only [h, if_true]
      have : valOfDigits [digitChar n] = digitVal (digitChar n) := by
        simp [valOfDigits]
      rw [this, digitVal_digitChar n h]
    · simp only [h, if_false]
      rw [valOfDigits_append_digit]
      have hdiv : n / 10 < n := Nat.div_lt_self (by omega) (by omega)
      rw [ih (n / 10) (by omega)]
      rw [digitVal_digitChar (n % 10) (by omega)]
      omega

theorem str_of_nat_injective : Function.Injective str_of_nat := by
  intro a b h
  have hdata : str_digits_aux (a + 1) a = str_digits_aux (b + 1) b :=
    congrArg String.data h
  have hval := congrArg valOfDigits hdata
  rwa [valOfDigits_str_digits_aux (a + 1) a (by omega),
       valOfDigits_str_digits_aux (b + 1) b (by omega)] at hval

theorem pathExists_iff (fs : List String) (p : String) :
    pathExists fs p = true ↔ p ∈ fs := by
  simp [pathExists]

theorem data_append (a b : String) : (a ++ b).data = a.data ++ b.data := rfl

theorem string_eq_of_data_eq {a b : String} (h : a.data = b.data) : a = b := by
  cases a; cases b; exact congrArg String.mk h

theorem candidate_injective (d b e : String) : Function.Injective (candidate d b e) := by
  intro i j h
  apply str_of_nat_injective
  have h' := congrArg String.data h
  simp only [candidate, joinPath, data_append, List.append_assoc] at h'
  replace h' := List.append_cancel_left h'
  replace h' := List.append_cancel_left h'
  replace h' := List.append_cancel_left h'
  replace h' := List.append_cancel_left h'
  replace h' := List.append_cancel_right h'
  exact string_eq_of_data_eq h'

/-- If candidates `1, ..., k-1` all exist in `fs`, then `k - 1 ≤ fs.length`:
the probe cannot run longer than the filesystem has entries. -/
theorem candidates_le_length (fs : List String) (d b e : String) (k : Nat)
    (hmem : ∀ j, 1 ≤ j → j < k → candidate d b e j ∈ fs) : k - 1 ≤ fs.length := by
  classical
  have hnodup : ((List.range' 1 (k - 1)).map (candidate d b e)).Nodup :=
    (List.nodup_range' 1 (k - 1)).map (candidate_injective d b e)
  have hsub : ((List.range' 1 (k - 1)).map (candidate d b e)).toFinset ⊆ fs.toFinset := by
    intro x hx
    rw [List.mem_toFinset] at hx ⊢
    obtain ⟨j, hj, rfl⟩ := List.mem_map.mp hx
    rw [List.mem_range'] at hj
    obtain ⟨i, hi, rfl⟩ := hj
    exact hmem (1 + 1 * i) (by omega) (by omega)
  have hcard := Finset.card_le_card hsub
  rw [List.toFinset_card_of_nodup hnodup] at hcard
  have hlen : ((List.range' 1 (k - 1)).map (candidate d b e)).length = k - 1 := by
    simp
  rw [hlen] at hcard
  exact hcard.trans (List.toFinset_card_le fs)

/-- When the current path does not exist, the probe loop stops at once. -/
theorem probe_loop_not_found (fs : List String) (d b e : String)
    (fuel : Nat) (out : String) (c : Nat) (h : pathExists fs out = false) :
    probe_loop fs d b e fuel out c = out := by
  cases fuel with
  | zero => rfl
  | succ f => simp [probe_loop, h]

/-- The probe loop, started at count `c` on an existing path, returns the
first free candidate `c + d` provided the fuel exceeds `d`. -/
theorem probe_loop_eq (fs : List String) (d b e : String) :
    ∀ (steps c : Nat) (out : String) (fuel : Nat),
      pathExists fs out = true →
      (∀ j, c ≤ j → j < c + steps → pathExists fs (candidate d b e j) = true) →
      pathExists fs (candidate d b e (c + steps)) = false →
      steps < fuel →
      probe_loop fs d b e fuel out c = candidate d b e (c + steps) := by
  intro steps
  induction steps with
  | zero =>
    intro c out fuel hout _ hfree hfuel
    obtain ⟨f, rfl⟩ : ∃ f, fuel = f + 1 := ⟨fuel - 1, by omega⟩
    simp only [probe_loop, hout, if_true]
    exact probe_loop_not_found fs d b e f (candidate d b e c) (c + 1)
      (by simpa using hfree)
  | succ s ih =>
    intro c out fuel hout hmem hfree hfuel
    obtain ⟨f, rfl⟩ : ∃ f, fuel = f + 1 := ⟨fuel - 1, by omega⟩
    simp only [probe_loop, hout, if_true]
    have hgoal := ih (c + 1) (candidate d b e c) f
      (hmem c le_rfl (by omega))
      (fun j hj1 hj2 => hmem j (by omega) (by omega))
      (by have : c + 1 + s = c + (s + 1) := by omega
          rw [this]; exact hfree)
      (by omega)
    rw [hgoal]
    congr 1
    omega

/-- Full characterisation of the collision probe inside
`resolve_output_path`: under a collision, the result is the first free
numbered candidate. -/
theorem resolve_output_path_collision (fs : List String) (output_dir file : String) (k : Nat)
    (hcol : pathExists fs (joinPath output_dir (basename file)) = true)
    (hk : 1 ≤ k)
    (hmem : ∀ j, 1 ≤ j → j < k →
      pathExists fs (candidate output_dir (splitext (basename file)).1
        (splitext (basename file)).2 j) = true)
    (hfree : pathExists fs (candidate output_dir (splitext (basename file)).1
        (splitext (basename file)).2 k) = false) :
    resolve_output_path fs output_dir file =
      candidate output_dir (splitext (basename file)).1 (splitext (basename file)).2 k := by
  have hbound : k - 1 ≤ fs.length := by
    apply candidates_le_length fs output_dir (splitext (basename file)).1
      (splitext (basename file)).2 k
    intro j hj1 hj2
    exact (pathExists_iff _ _).mp (hmem j hj1 hj2)
  unfold resolve_output_path
  simp only [hcol, if_true]
  have := probe_loop_eq fs output_dir (splitext (basename file)).1
    (splitext (basename file)).2 (k - 1) 1
    (joinPath output_dir (basename file)) (fs.length + 1) hcol
    (fun j hj1 hj2 => hmem j hj1 (by omega))
    (by have : 1 + (k - 1) = k := by omega
        rw [this]; exact hfree)
    (by omega)
  rw [this]
  congr 1
  omega

/-- With no collision, the resolution returns the joined path unchanged. -/
theorem resolve_output_path_free (fs : List String) (output_dir file : String)
    (h : pathExists fs (joinPath output_dir (basename file)) = false) :
    resolve_output_path fs output_dir file = joinPath output_dir (basename file) := by
  unfold resolve_output_path
  simp [h]

/-- Sanity: the decimal renderer agrees with the standard one on small inputs. -/
theorem str_of_nat_agrees : ∀ n, n < 100 → str_of_nat n = Nat.repr n := by decide

theorem process_step_outcomes (oracle : LinkOracle) (output_dir : String) (total : Nat)
    (st : BatchState) (i : Nat) (file : String) :
    (process_step oracle output_dir total st i file).outcomes =
      st.outcomes ++ [step_outcome oracle output_dir total st i file] := by
  unfold process_step step_outcome
  cases progress_value i total with
  | none => rfl
  | some p =>
    simp only
    cases link_error oracle st.fs file (resolve_output_path st.fs output_dir file) with
    | none => rfl
    | some msg => rfl

theorem process_step_counts (oracle : LinkOracle) (output_dir : String) (total : Nat)
    (st : BatchState) (i : Nat) (file : String) :
    (process_step oracle output_dir total st i file).success_count +
      (process_step oracle output_dir total st i file).error_count =
      st.success_count + st.error_count + 1 := by
  unfold process_step
  cases progress_value i total with
  | none => simp; omega
  | some p =>
    simp only
    cases link_error oracle st.fs file (resolve_output_path st.fs output_dir file) with
    | none => simp; omega
    | some msg => simp; omega

theorem go_outcomes_length (oracle : LinkOracle) (output_dir : String) (total : Nat) :
    ∀ (l : List String) (i : Nat) (st : BatchState),
      (process_files_go oracle output_dir total l i st).outcomes.length =
        st.outcomes.length + l.length := by
  intro l
  induction l with
  | nil => intro i st; simp [process_files_go]
  | cons file rest ih =>
    intro i st
    simp only [process_files_go, List.length_cons]
    rw [ih]
    rw [process_step_outcomes]
    simp
    omega

theorem go_counts (oracle : LinkOracle) (output_dir : String) (total : Nat) :
    ∀ (l : List String) (i : Nat) (st : BatchState),
      (process_files_go oracle output_dir total l i st).success_count +
        (process_files_go oracle output_dir total l i st).error_count =
        st.success_count + st.error_count + l.length := by
  intro l
  induction l with
  | nil => intro i st; simp [process_files_go]
  | cons file rest ih =>
    intro i st
    simp only [process_files_go, List.length_cons]
    rw [ih]
    rw [process_step_counts]
    omega

theorem go_outcomes_extend (oracle : LinkOracle) (output_dir : String) (total : Nat) :
    ∀ (l : List String) (i : Nat) (st : BatchState),
      ∃ t, (process_files_go oracle output_dir total l i st).outcomes =
        st.outcomes ++ t := by
  intro l
  induction l with
  | nil => intro i st; exact ⟨[], by simp [process_files_go]⟩
  | cons file rest ih =>
    intro i st
    obtain ⟨t, ht⟩ := ih (i + 1) (process_step oracle output_dir total st i file)
    refine ⟨step_outcome oracle output_dir total st i file :: t, ?_⟩
    rw [process_files_go, ht, process_step_outcomes]
    simp

theorem go_get (oracle : LinkOracle) (output_dir : String) (total : Nat) :
    ∀ (l : List String) (i : Nat) (st : BatchState) (j : Nat) (hj : j < l.length),
      (process_files_go oracle output_dir total l i st).outcomes[st.outcomes.length + j]? =
        some (step_outcome oracle output_dir total
          (process_files_go oracle output_dir total (l.take j) i st) (i + j)
          (l.get ⟨j, hj⟩)) := by
  intro l
  induction l with
  | nil => intro i st j hj; simp at hj
  | cons file rest ih =>
    intro i st j hj
    cases j with
    | zero =>
      simp only [process_files_go, List.take_zero, List.get]
      obtain ⟨t, ht⟩ := go_outcomes_extend oracle output_dir total rest (i + 1)
        (process_step oracle output_dir total st i file)
      rw [ht, process_step_outcomes]
      simp only [List.append_assoc, List.singleton_append]
      rw [List.getElem?_append_right (by omega)]
      simp
    | succ j' =>
      simp only [process_files_go, List.length_cons] at hj ⊢
      have hstep := ih (i + 1) (process_step oracle output_dir total st i file) j' (by omega)
      rw [process_step_outcomes] at hstep
      simp only [List.length_append, List.length_singleton] at hstep
      have hidx : st.outcomes.length + 1 + j' = st.outcomes.length + (j' + 1) := by omega
      rw [hidx] at hstep
      rw [hstep]
      have hidx2 : i + 1 + j' = i + (j' + 1) := by omega
      rw [hidx2]
      rfl

theorem go_append (oracle : LinkOracle) (output_dir : String) (total : Nat) :
    ∀ (l1 l2 : List String) (i : Nat) (st : BatchState),
      process_files_go oracle output_dir total (l1 ++ l2) i st =
        process_files_go oracle output_dir total l2 (i + l1.length)
          (process_files_go oracle output_dir total l1 i st) := by
  intro l1
  induction l1 with
  | nil => intro l2 i st; simp [process_files_go]
  | cons file rest ih =>
    intro l2 i st
    simp only [List.cons_append, process_files_go, List.length_cons]
    rw [List.append_eq, ih]
    have : i + (rest.length + 1) = i + 1 + rest.length := by omega
    rw [this]

theorem process_step_progress (oracle : LinkOracle) (output_dir : String) (total : Nat)
    (st : BatchState) (i : Nat) (file : String) :
    (process_step oracle output_dir total st i file).progress_log =
      st.progress_log ++ [progress_value i total] := by
  unfold process_step
  cases hpv : progress_value i total with
  | none => simp
  | some p =>
    simp only
    cases link_error oracle st.fs file (resolve_output_path st.fs output_dir file) with
    | none => rfl
    | some msg => rfl

theorem go_progress_all_some (oracle : LinkOracle) (output_dir : String) (total : Nat)
    (htot : total ≠ 0) :
    ∀ (l : List String) (i : Nat) (st : BatchState),
      (∀ o ∈ st.progress_log, o.isSome = true) →
      ∀ o ∈ (process_files_go oracle output_dir total l i st).progress_log,
        o.isSome = true := by
  intro l
  induction l with
  | nil => intro i st h; simpa [process_files_go] using h
  | cons file rest ih =>
    intro i st h
    rw [process_files_go]
    apply ih
    intro o ho
    rw [process_step_progress] at ho
    rcases List.mem_append.mp ho with hin | hnew
    · exact h o hin
    · rcases List.mem_singleton.mp hnew with rfl
      simp [progress_value, htot]

/-! ## Claim theorems -/

/-- C1: destination-name resolution returns `output_dir/basename(file)`
unchanged when no file exists there; under a collision it returns
`output_dir/stem_k.ext` where `k` is the smallest positive integer whose
candidate does not exist, probing `k = 1, 2, ...` in order. -/
theorem C1_resolve_destination_name (fs : List String) (output_dir file : String) (k : Nat) :
    (pathExists fs (joinPath output_dir (basename file)) = false →
      resolve_output_path fs output_dir file = joinPath output_dir (basename file))
    ∧ (pathExists fs (joinPath output_dir (basename file)) = true →
       1 ≤ k →
       (∀ j, 1 ≤ j → j < k →
         pathExists fs (candidate output_dir (splitext (basename file)).1
           (splitext (basename file)).2 j) = true) →
       pathExists fs (candidate output_dir (splitext (basename file)).1
           (splitext (basename file)).2 k) = false →
       resolve_output_path fs output_dir file =
         candidate output_dir (splitext (basename file)).1 (splitext (basename file)).2 k) := by
  constructor
  · exact resolve_output_path_free fs output_dir file
  · intro hcol hk hmem hfree
    exact resolve_output_path_collision fs output_dir file k hcol hk hmem hfree

/-- Witness for C1: a collision probed to `_2`, and a collision-free case. -/
theorem C1_resolve_destination_name_witness :
    resolve_output_path ["d/a.txt", "d/a_1.txt"] "d" "s/a.txt" = "d/a_2.txt"
    ∧ resolve_output_path ["other"] "d" "s/a.txt" = "d/a.txt" := by
  constructor
  · have h := (C1_resolve_destination_name ["d/a.txt", "d/a_1.txt"] "d" "s/a.txt" 2).2
      (by decide) (by decide)
      (by intro j h1 h2
          have hj : j = 1 := by omega
          subst hj
          decide)
      (by decide)
    rw [h]
    decide
  · have h := (C1_resolve_destination_name ["other"] "d" "s/a.txt" 2).1 (by decide)
    rw [h]
    decide

/-- C2: the batch over `n` sources yields exactly `n` outcomes;
`success_count + error_count = n`; and the `j`-th outcome is the outcome
of processing the `j`-th source in the state reached after the first `j`
sources (input order). -/
theorem C2_batch_outcome_accounting (oracle : LinkOracle) (output_dir : String)
    (files fs : List String) :
    (process_files oracle output_dir files fs).outcomes.length = files.length
    ∧ (process_files oracle output_dir files fs).success_count +
        (process_files oracle output_dir files fs).error_count = files.length
    ∧ ∀ j (hj : j < files.length),
        (process_files oracle output_dir files fs).outcomes[j]? =
          some (step_outcome oracle output_dir files.length
            (state_after oracle output_dir files fs j) j (files.get ⟨j, hj⟩)) := by
  refine ⟨?_, ?_, ?_⟩
  · rw [process_files, go_outcomes_length]
    simp [initial_state]
  · rw [process_files, go_counts]
    simp [initial_state]
  · intro j hj
    have h := go_get oracle output_dir files.length files 0 (initial_state fs) j hj
    simpa [initial_state, state_after] using h

/-- Witness for C2 on a two-file batch. -/
theorem C2_batch_outcome_accounting_witness :
    (process_files (fun _ _ _ => none) "out" ["a/x.txt", "b/x.txt"]
      ["a/x.txt", "b/x.txt", "out"]).outcomes.length = 2
    ∧ (process_files (fun _ _ _ => none) "out" ["a/x.txt", "b/x.txt"]
      ["a/x.txt", "b/x.txt", "out"]).outcomes[1]? =
        some (step_outcome (fun _ _ _ => none) "out" 2
          (state_after (fun _ _ _ => none) "out" ["a/x.txt", "b/x.txt"]
            ["a/x.txt", "b/x.txt", "out"] 1) 1 "b/x.txt") := by
  have h := C2_batch_outcome_accounting (fun _ _ _ => none) "out"
    ["a/x.txt", "b/x.txt"] ["a/x.txt", "b/x.txt", "out"]
  exact ⟨h.1, h.2.2 1 (by decide)⟩

/-- C3: a raise while processing one file is caught inside that file's
step and recorded as a Failure outcome; the loop then continues with the
remaining sources, and the batch result contains an outcome for every
source (no early abort). -/
theorem C3_failure_isolation (oracle : LinkOracle) (output_dir : String) (total : Nat)
    (st : BatchState) (i : Nat) (file : String) (rest : List String) (p : Nat) (msg : String)
    (hp : progress_value i total = some p)
    (hl : link_error oracle st.fs file (resolve_output_path st.fs output_dir file) =
      some msg) :
    process_step oracle output_dir total st i file =
      { st with
        outcomes := st.outcomes ++ [LinkOutcome.failure file msg],
        error_count := st.error_count + 1,
        progress_log := st.progress_log ++ [some p] }
    ∧ process_files_go oracle output_dir total (file :: rest) i st =
        process_files_go oracle output_dir total rest (i + 1)
          (process_step oracle output_dir total st i file)
    ∧ (process_files_go oracle output_dir total (file :: rest) i st).outcomes.length =
        st.outcomes.length + (rest.length + 1) := by
  refine ⟨?_, rfl, ?_⟩
  · simp only [process_step, hp, hl]
  · rw [go_outcomes_length]
    simp

/-- Witness for C3: a permission-style raise at the single file is caught
and the batch still reports one outcome. -/
theorem C3_failure_isolation_witness :
    process_step (fun _ _ _ => some "Permission denied") "out" 1
      (initial_state ["a/x.txt"]) 0 "a/x.txt" =
      { initial_state ["a/x.txt"] with
        outcomes := [LinkOutcome.failure "a/x.txt" "Permission denied"],
        error_count := 1,
        progress_log := [some 100] }
    ∧ (process_files_go (fun _ _ _ => some "Permission denied") "out" 1 ["a/x.txt"] 0
        (initial_state ["a/x.txt"])).outcomes.length = 1 := by
  have h := C3_failure_isolation (fun _ _ _ => some "Permission denied") "out" 1
    (initial_state ["a/x.txt"]) 0 "a/x.txt" [] 100 "Permission denied"
    (by decide) (by decide)
  exact ⟨h.1, h.2.2⟩

/-- C4: a source missing from the filesystem yields a Failure outcome and
never a Success: the success count is unchanged, only the error count is
incremented, no link is created, and the loop continues with the
remaining sources. -/
theorem C4_missing_source (oracle : LinkOracle) (output_dir : String) (total : Nat)
    (st : BatchState) (i : Nat) (file : String) (rest : List String)
    (hmissing : pathExists st.fs file = false) :
    (∃ msg, (process_step oracle output_dir total st i file).outcomes =
        st.outcomes ++ [LinkOutcome.failure file msg])
    ∧ (process_step oracle output_dir total st i file).success_count = st.success_count
    ∧ (process_step oracle output_dir total st i file).error_count = st.error_count + 1
    ∧ (process_step oracle output_dir total st i file).fs = st.fs
    ∧ process_files_go oracle output_dir total (file :: rest) i st =
        process_files_go oracle output_dir total rest (i + 1)
          (process_step oracle output_dir total st i file) := by
  cases hpv : progress_value i total with
  | none =>
    refine ⟨⟨zeroDivMsg, ?_⟩, ?_, ?_, ?_, rfl⟩ <;> simp [process_step, hpv]
  | some p =>
    have hl : link_error oracle st.fs file (resolve_output_path st.fs output_dir file) =
        some (fileNotFoundMsg file) := by
      simp [link_error, hmissing]
    refine ⟨⟨fileNotFoundMsg file, ?_⟩, ?_, ?_, ?_, rfl⟩ <;> simp [process_step, hpv, hl]

/-- Witness for C4: linking a non-existent source fails and only the
error counter moves. -/
theorem C4_missing_source_witness :
    (process_step (fun _ _ _ => none) "out" 1 (initial_state ["out"]) 0
      "missing/f.txt").success_count = 0
    ∧ (process_step (fun _ _ _ => none) "out" 1 (initial_state ["out"]) 0
      "missing/f.txt").error_count = 1 := by
  have h := C4_missing_source (fun _ _ _ => none) "out" 1 (initial_state ["out"]) 0
    "missing/f.txt" [] (by decide)
  exact ⟨h.2.1, h.2.2.1⟩

/-- C5: with a non-empty source list and a set, non-existent destination,
validation creates the destination including every intermediate parent
and succeeds; if the creation raises, validation fails with
`DestinationCreateError` and the batch never starts. -/
theorem C5_destination_creation (oracle : LinkOracle) (mkdir_ok : Bool)
    (fs files : List String) (output_dir : String)
    (hne : files.length ≠ 0) (hdir : output_dir ≠ "")
    (hnex : pathExists fs output_dir = false) :
    (mkdir_ok = true →
      validate_inputs mkdir_ok fs files output_dir =
        (Except.ok (makedirs_created output_dir ++ fs),
          [FsOp.existsCheck output_dir, FsOp.makedirs output_dir])
      ∧ output_dir ∈ makedirs_created output_dir
      ∧ ∀ p ∈ makedirs_created output_dir,
          pathExists (makedirs_created output_dir ++ fs) p = true)
    ∧ (mkdir_ok = false →
      validate_inputs mkdir_ok fs files output_dir =
        (Except.error ValidateError.destinationCreateError,
          [FsOp.existsCheck output_dir, FsOp.makedirs output_dir])
      ∧ create_hardlinks oracle mkdir_ok fs files output_dir = none) := by
  constructor
  · intro hmk
    subst hmk
    refine ⟨?_, ?_, ?_⟩
    · simp [validate_inputs, hne, hdir, hnex]
    · simp [makedirs_created]
    · intro p hp
      rw [pathExists_iff]
      exact List.mem_append_left _ hp
  · intro hmk
    subst hmk
    constructor
    · simp [validate_inputs, hne, hdir, hnex]
    · simp [create_hardlinks, validate_inputs, hne, hdir, hnex]

/-- Witness for C5: creating `out/sub` also creates the parent `out`;
when creation raises, the batch does not start. -/
theorem C5_destination_creation_witness :
    validate_inputs true [] ["a"] "out/sub" =
      (Except.ok ["out/sub", "out"],
        [FsOp.existsCheck "out/sub", FsOp.makedirs "out/sub"])
    ∧ create_hardlinks (fun _ _ _ => none) false [] ["a"] "out/sub" = none := by
  have h := C5_destination_creation (fun _ _ _ => none) true [] ["a"] "out/sub"
    (by decide) (by decide) (by decide)
  have h2 := C5_destination_creation (fun _ _ _ => none) false [] ["a"] "out/sub"
    (by decide) (by decide) (by decide)
  refine ⟨?_, (h2.2 rfl).2⟩
  rw [(h.1 rfl).1]
  rfl

/-- C6: validating an empty source list fails with `EmptyInput` for every
destination value, every filesystem state and every creation oracle, and
the trace of filesystem operations performed is empty. -/
theorem C6_empty_input_no_fs_ops (mkdir_ok : Bool) (fs : List String) (output_dir : String) :
    validate_inputs mkdir_ok fs [] output_dir =
      (Except.error ValidateError.emptyInput, []) := rfl

/-- C7: collision resolution is deterministic: on the same source path,
destination directory and filesystem state, two runs return the identical
destination path. -/
theorem C7_resolution_deterministic (fs1 fs2 : List String) (d1 d2 f1 f2 : String)
    (hfs : fs1 = fs2) (hd : d1 = d2) (hf : f1 = f2) :
    resolve_output_path fs1 d1 f1 = resolve_output_path fs2 d2 f2 := by
  subst hfs
  subst hd
  subst hf
  rfl

/-- Witness for C7. -/
theorem C7_resolution_deterministic_witness :
    resolve_output_path ["d/a.txt"] "d" "a.txt" = resolve_output_path ["d/a.txt"] "d" "a.txt" :=
  C7_resolution_deterministic ["d/a.txt"] ["d/a.txt"] "d" "d" "a.txt" "a.txt" rfl rfl rfl

/-- C8 as stated fails: a starting list within the bound but containing
the path twice keeps two occurrences (`list.remove` drops only the first),
and with `max_entries = 0` the added path is immediately popped, so it is
not at the front. -/
theorem C8_recent_paths_counterexample :
    (["a", "a"] : List String).length ≤ 10
    ∧ (add_path 10 ["a", "a"] "a").count "a" = 2
    ∧ (add_path 0 ([] : List String) "a").head? = none := by decide

/-- C8 amended: for every starting list within the bound, adding a path
preserves the bound; moreover, when `max_entries ≥ 1` and the path occurs
at most once in the starting list, the added path is placed at the front
and occurs exactly once afterwards. -/
theorem C8_recent_paths_amended (max_entries : Nat) (paths : List String) (p : String)
    (hbound : paths.length ≤ max_entries) :
    (add_path max_entries paths p).length ≤ max_entries
    ∧ (1 ≤ max_entries → paths.count p ≤ 1 →
        (add_path max_entries paths p).head? = some p
        ∧ (add_path max_entries paths p).count p = 1) := by
  by_cases hmem : p ∈ paths
  · have hlen1 : 1 ≤ paths.length := List.length_pos.mpr (by rintro rfl; simp at hmem)
    have herase_len : (paths.erase p).length = paths.length - 1 :=
      List.length_erase_of_mem hmem
    have hform : add_path max_entries paths p = p :: paths.erase p := by
      unfold add_path
      simp only [hmem, if_true]
      rw [if_neg (by simp only [List.length_cons, herase_len]; omega)]
    have hlen : (add_path max_entries paths p).length = paths.length := by
      rw [hform]
      simp only [List.length_cons, herase_len]
      omega
    refine ⟨by rw [hlen]; omega, ?_⟩
    intro _ hcount
    have hc1 : paths.count p = 1 := by
      have := List.count_pos_iff.mpr hmem
      omega
    rw [hform]
    refine ⟨rfl, ?_⟩
    rw [List.count_cons_self, List.count_erase_self, hc1]
  · have hcount0 : paths.count p = 0 := List.count_eq_zero.mpr hmem
    have hform : add_path max_entries paths p =
        if paths.length + 1 > max_entries then (p :: paths).dropLast else p :: paths := by
      unfold add_path
      simp [hmem]
    by_cases hover : paths.length + 1 > max_entries
    · have hNlen : paths.length = max_entries := by omega
      have hres : add_path max_entries paths p = (p :: paths).dropLast := by
        rw [hform, if_pos hover]
      constructor
      · rw [hres]
        simp only [List.length_dropLast, List.length_cons]
        omega
      · intro hN _
        have hpne : paths ≠ [] := by
          intro h0
          rw [h0] at hNlen
          simp at hNlen
          omega
        have hdrop : (p :: paths).dropLast = p :: paths.dropLast :=
          List.dropLast_cons_of_ne_nil hpne
        rw [hres, hdrop]
        refine ⟨rfl, ?_⟩
        rw [List.count_cons_self]
        have hsub : paths.dropLast.count p ≤ paths.count p :=
          (List.dropLast_sublist paths).count_le p
        omega
    · have hres : add_path max_entries paths p = p :: paths := by
        rw [hform, if_neg hover]
      rw [hres]
      refine ⟨by simp; omega, ?_⟩
      intro _ _
      refine ⟨rfl, ?_⟩
      rw [List.count_cons_self, hcount0]

/-- Witness for C8 amended. -/
theorem C8_recent_paths_amended_witness :
    (add_path 10 ["b"] "a").length ≤ 10
    ∧ (add_path 10 ["b"] "a").head? = some "a"
    ∧ (add_path 10 ["b"] "a").count "a" = 1 := by
  have h := C8_recent_paths_amended 10 ["b"] "a" (by decide)
  exact ⟨h.1, (h.2 (by decide) (by decide)).1, (h.2 (by decide) (by decide)).2⟩

/-- C9: loading the persisted recent paths returns the empty list when the
file is missing, when reading raises, and when the JSON is corrupt; the
function is total, so no exception reaches the caller. -/
theorem C9_load_recent_paths_safe (parse : String → Except String (List String))
    (msg text err : String) (hbad : parse text = Except.error err) :
    load_recent_paths parse FileReadResult.missing = []
    ∧ load_recent_paths parse (FileReadResult.readError msg) = []
    ∧ load_recent_paths parse (FileReadResult.content text) = [] := by
  refine ⟨rfl, rfl, ?_⟩
  simp [load_recent_paths, hbad]

/-- Witness for C9. -/
theorem C9_load_recent_paths_safe_witness :
    load_recent_paths (fun _ => Except.error "Expecting value") FileReadResult.missing = []
    ∧ load_recent_paths (fun _ => Except.error "Expecting value")
        (FileReadResult.readError "Permission denied") = []
    ∧ load_recent_paths (fun _ => Except.error "Expecting value")
        (FileReadResult.content "not json") = [] :=
  C9_load_recent_paths_safe (fun _ => Except.error "Expecting value")
    "Permission denied" "not json" "Expecting value" rfl

/-- C10: after successful validation the source list is non-empty, so with
`total = len(files)` every progress computation in the loop is defined
(no division by zero). -/
theorem C10_progress_defined (oracle : LinkOracle) (mkdir_ok : Bool)
    (fs files fs2 : List String) (output_dir : String) (ops : List FsOp)
    (hval : validate_inputs mkdir_ok fs files output_dir = (Except.ok fs2, ops)) :
    1 ≤ files.length
    ∧ (process_files oracle output_dir files fs2).progress_log.all Option.isSome = true := by
  have hlen : files.length ≠ 0 := by
    intro h0
    rw [validate_inputs] at hval
    simp [h0] at hval
  refine ⟨by omega, ?_⟩
  rw [List.all_eq_true]
  intro o ho
  exact go_progress_all_some oracle output_dir files.length hlen files 0
    (initial_state fs2) (by simp [initial_state]) o ho

/-- Witness for C10. -/
theorem C10_progress_defined_witness :
    1 ≤ (["a/x.txt"] : List String).length
    ∧ (process_files (fun _ _ _ => none) "out" ["a/x.txt"]
        ["out"]).progress_log.all Option.isSome = true :=
  C10_progress_defined (fun _ _ _ => none) true [] ["a/x.txt"] ["out"] "out"
    [FsOp.existsCheck "out", FsOp.makedirs "out"] rfl

end Hardlink
